import Mathlib

set_option linter.unusedVariables false

/-! Shallow embedding of parts of the XCM messaging library: the UTLS
hybrid transport (xcm_tp_utls.c), the transport dispatch layer and the
generic attribute getters and protocol registry (xcm_tp.c), and the
introspection-channel machinery (ctl.c).  Outcomes of OS-level calls
(connect, accept, bind, recv, send) are supplied as explicit environment
values; ut_assert failures (which abort the process) are modelled as
absence of a successful result. -/

/-- errno value ECONNREFUSED on Linux. -/
def ECONNREFUSED : Nat := 111

/-- errno value EOVERFLOW on Linux. -/
def EOVERFLOW : Nat := 75

/-- errno value ENOENT on Linux. -/
def ENOENT : Nat := 2

/-- errno value EAGAIN on Linux. -/
def EAGAIN : Nat := 11

/-- Protocol tag of the UX transport (XCM_UX_PROTO). -/
def XCM_UX_PROTO : String := "ux"

/-- Protocol tag of the TLS transport (XCM_TLS_PROTO). -/
def XCM_TLS_PROTO : String := "tls"

/-- Protocol tag of the UTLS transport (XCM_UTLS_PROTO). -/
def XCM_UTLS_PROTO : String := "utls"

/-- enum xcm_socket_type: connection or server socket. -/
inductive SocketType where
  | conn
  | server
deriving DecidableEq, Repr

/-- An inner (sub) socket owned by a UTLS socket, as created by
create_sub_socket (xcm_tp_utls.c:130): its protocol tag and the
process-unique socket id assigned by xcm_tp_socket_create. -/
structure SubSocket where
  proto : String
  sock_id : Nat
deriving DecidableEq, Repr

/-- struct utls_socket (xcm_tp_utls.c:37): the socket type together with
the two optional inner sockets (the attribute-proxy arrays are not part
of the modelled claims). -/
structure UtlsSocket where
  typ : SocketType
  ux_socket : Option SubSocket
  tls_socket : Option SubSocket
deriving DecidableEq, Repr

/-- active_sub_conn (xcm_tp_utls.c:381): the UX inner socket when
present, otherwise the TLS inner socket. -/
def active_sub_conn (s : UtlsSocket) : Option SubSocket :=
  match s.ux_socket with
  | some ux => some ux
  | none => s.tls_socket

/-- xcm_tp_socket_get_transport (xcm_tp.c:164) applied to a UTLS inner
socket.  Modelled from the spec: the UX and TLS transports (whose source
files are not included) leave the optional get_transport hook unset --
per the comment in xcm_tp.c the hook exists only so UTLS connections can
masquerade -- so dispatch falls back to proto->name. -/
def xcm_tp_sub_get_transport (ss : SubSocket) : String := ss.proto

/-- utls_get_transport (xcm_tp_utls.c:431): a connection socket
masquerades as the underlying transport of its active inner socket; a
server socket reports "utls".  none models the NULL dereference that
would occur on a connection socket with no inner socket. -/
def utls_get_transport (s : UtlsSocket) : Option String :=
  if s.typ = SocketType.conn then
    (active_sub_conn s).map xcm_tp_sub_get_transport
  else
    some XCM_UTLS_PROTO

/-- Result of an OS/transport-level attempt: success, or failure with an
errno value. -/
inductive SysRes where
  | ok
  | err (errno : Nat)
deriving DecidableEq, Repr

/-- Environment of one utls_connect call: whether xcm_addr_parse_utls
accepts the remote address, and the outcomes of the inner UX and TLS
connect attempts. -/
structure ConnectEnv where
  parse_ok : Bool
  ux_res : SysRes
  tls_res : SysRes
deriving DecidableEq, Repr

/-- Observable actions the UTLS transport performs on its inner
sockets, in program order. -/
inductive UtlsAction where
  | connect_ux
  | connect_tls
  | accept_ux
  | accept_tls
  | close_ux
  | close_tls
  | cleanup_ux
  | cleanup_tls
  | destroy_ux
  | destroy_tls
deriving DecidableEq, Repr

/-- utls_connect (xcm_tp_utls.c:198), starting from the state left by
utls_init (both inner sockets present, ux0 and tls0).  Returns the
resulting connection socket (none on failure) together with the trace of
inner-socket actions. -/
def utls_connect (env : ConnectEnv) (ux0 tls0 : SubSocket) :
    Option UtlsSocket × List UtlsAction :=
  if env.parse_ok then
    match env.ux_res with
    | SysRes.ok =>
      (some ⟨SocketType.conn, some ux0, none⟩,
       [UtlsAction.connect_ux, UtlsAction.close_tls, UtlsAction.destroy_tls])
    | SysRes.err e =>
      if e = ECONNREFUSED then
        match env.tls_res with
        | SysRes.ok =>
          (some ⟨SocketType.conn, none, some tls0⟩,
           [UtlsAction.connect_ux, UtlsAction.connect_tls,
            UtlsAction.destroy_ux])
        | SysRes.err _ =>
          (none,
           [UtlsAction.connect_ux, UtlsAction.connect_tls,
            UtlsAction.destroy_ux, UtlsAction.destroy_tls])
      else
        (none,
         [UtlsAction.connect_ux, UtlsAction.close_tls,
          UtlsAction.destroy_ux, UtlsAction.destroy_tls])
  else
    (none,
     [UtlsAction.close_ux, UtlsAction.close_tls,
      UtlsAction.destroy_ux, UtlsAction.destroy_tls])

/-- Environment of one utls_accept call: whether the inner accept on the
UX listener and on the TLS listener would succeed. -/
structure AcceptEnv where
  ux_ok : Bool
  tls_ok : Bool
deriving DecidableEq, Repr

/-- utls_accept (xcm_tp_utls.c:358): try the UX listener first, then the
TLS listener; on success the other inner socket of the fresh connection
socket is released. -/
def utls_accept (env : AcceptEnv) (ux0 tls0 : SubSocket) :
    Option UtlsSocket × List UtlsAction :=
  if env.ux_ok then
    (some ⟨SocketType.conn, some ux0, none⟩,
     [UtlsAction.accept_ux, UtlsAction.close_tls, UtlsAction.destroy_tls])
  else if env.tls_ok then
    (some ⟨SocketType.conn, none, some tls0⟩,
     [UtlsAction.accept_ux, UtlsAction.accept_tls, UtlsAction.destroy_ux])
  else
    (none,
     [UtlsAction.accept_ux, UtlsAction.accept_tls,
      UtlsAction.destroy_ux, UtlsAction.destroy_tls])

/-- utls_send (xcm_tp_utls.c:388): dispatch to xcm_tp_socket_send on the
active inner socket; the inner transport's send is the parameter.  none
models the NULL dereference when no inner socket remains. -/
def utls_send (sub_send : SubSocket → Int) (s : UtlsSocket) : Option Int :=
  (active_sub_conn s).map sub_send

/-- utls_receive (xcm_tp_utls.c:393): dispatch to the active inner
socket. -/
def utls_receive (sub_receive : SubSocket → Int) (s : UtlsSocket) : Option Int :=
  (active_sub_conn s).map sub_receive

/-- utls_max_msg (xcm_tp_utls.c:521): dispatch to the active inner
socket. -/
def utls_max_msg (sub_max_msg : SubSocket → Nat) (s : UtlsSocket) : Option Nat :=
  (active_sub_conn s).map sub_max_msg

/-- utls_get_cnt (xcm_tp_utls.c:526): dispatch to the active inner
socket; the counter record is abstracted by the parameter. -/
def utls_get_cnt (sub_get_cnt : SubSocket → Nat) (s : UtlsSocket) : Option Nat :=
  (active_sub_conn s).map sub_get_cnt

/-- An XCM address, structurally: protocol tag plus host and port.
Address-string parsing and formatting are external collaborators
(spec sections 1 and 6), so addresses are modelled as parsed tuples. -/
structure Addr where
  proto : String
  host : String
  port : Nat
deriving DecidableEq, Repr

/-- xcm_addr_make_tls: the TLS address with the given host:port part. -/
def xcm_addr_make_tls (host : String) (port : Nat) : Addr :=
  ⟨XCM_TLS_PROTO, host, port⟩

/-- map_tls_to_ux (xcm_tp_utls.c:185): build the UX address reusing the
TLS address's host:port part verbatim (the C code strips the leading
"tls:" and hands the remainder to xcm_addr_ux_make). -/
def map_tls_to_ux (tls_addr : Addr) : Addr :=
  ⟨XCM_UX_PROTO, tls_addr.host, tls_addr.port⟩

/-- xcm_addr_parse_tls on a structural address: succeeds exactly on
addresses carrying the TLS tag. -/
def xcm_addr_parse_tls (a : Addr) : Option (String × Nat) :=
  if a.proto = XCM_TLS_PROTO then some (a.host, a.port) else none

/-- Environment of one utls_server call: the result of
xcm_addr_parse_utls on the local address, whether each inner bind
succeeds, and the local address xcm_local_addr reports for the bound TLS
listener (carrying the kernel-assigned port when port 0 was
requested). -/
structure ServerEnv where
  parse : Option (String × Nat)
  tls_bind_ok : Bool
  tls_local_addr : Addr
  ux_bind_ok : Bool
deriving DecidableEq, Repr

/-- Bind attempts performed by utls_server, in program order. -/
inductive ServerAction where
  | bind_tls (a : Addr)
  | bind_ux (a : Addr)
deriving DecidableEq, Repr

/-- The two listener addresses of a successfully created UTLS server
socket. -/
structure UtlsServerSocket where
  tls_addr : Addr
  ux_addr : Addr
deriving DecidableEq, Repr

/-- utls_server (xcm_tp_utls.c:261): bind the TLS listener first; when
port 0 was requested, parse the kernel-assigned port back out of the TLS
socket's local address (ut_assert that this parse succeeds with a
positive port; assert failure aborts, modelled as none); then bind the
UX listener on the mapped address. -/
def utls_server (env : ServerEnv) :
    Option UtlsServerSocket × List ServerAction :=
  match env.parse with
  | none => (none, [])
  | some (host, port) =>
    let tls_addr := xcm_addr_make_tls host port
    if env.tls_bind_ok then
      let actual : Option Addr :=
        if port = 0 then
          match xcm_addr_parse_tls env.tls_local_addr with
          | some (_, p) => if 0 < p then some env.tls_local_addr else none
          | none => none
        else some tls_addr
      match actual with
      | none => (none, [ServerAction.bind_tls tls_addr])
      | some actual_addr =>
        let ux_addr := map_tls_to_ux actual_addr
        if env.ux_bind_ok then
          (some ⟨actual_addr, ux_addr⟩,
           [ServerAction.bind_tls tls_addr, ServerAction.bind_ux ux_addr])
        else
          (none,
           [ServerAction.bind_tls tls_addr, ServerAction.bind_ux ux_addr])
    else
      (none, [ServerAction.bind_tls tls_addr])

/-- Inner-socket close results for a utls_close call (what
xcm_tp_socket_close returns for each present inner socket). -/
structure UtlsCloseEnv where
  ux_rc : Int
  tls_rc : Int
deriving DecidableEq, Repr

/-- utls_close (xcm_tp_utls.c:325): with a NULL socket only the trace
log runs and 0 is returned; otherwise both inner sockets are closed
(xcm_tp_socket_close is a no-op returning 0 on an absent inner socket)
and deinit destroys whatever is present. -/
def utls_close (s : Option UtlsSocket) (env : UtlsCloseEnv) :
    Int × List UtlsAction :=
  match s with
  | none => (0, [])
  | some us =>
    let ux_rc : Int := if us.ux_socket.isSome then env.ux_rc else 0
    let tls_rc : Int := if us.tls_socket.isSome then env.tls_rc else 0
    (if ux_rc < 0 ∨ tls_rc < 0 then -1 else 0,
     (if us.ux_socket.isSome then [UtlsAction.close_ux] else []) ++
     (if us.tls_socket.isSome then [UtlsAction.close_tls] else []) ++
     (if us.ux_socket.isSome then [UtlsAction.destroy_ux] else []) ++
     (if us.tls_socket.isSome then [UtlsAction.destroy_tls] else []))

/-- utls_cleanup (xcm_tp_utls.c:344): with a NULL socket nothing
happens; otherwise both inner sockets are cleaned up and destroyed. -/
def utls_cleanup (s : Option UtlsSocket) : List UtlsAction :=
  match s with
  | none => []
  | some us =>
    (if us.ux_socket.isSome then [UtlsAction.cleanup_ux] else []) ++
    (if us.tls_socket.isSome then [UtlsAction.cleanup_tls] else []) ++
    (if us.ux_socket.isSome then [UtlsAction.destroy_ux] else []) ++
    (if us.tls_socket.isSome then [UtlsAction.destroy_tls] else [])

/-- Effects performed by the generic socket close/cleanup paths
(xcm_tp.c:99 and xcm_tp.c:112). -/
inductive CloseAction where
  | ctl_destroy
  | tp_close
  | tp_cleanup
deriving DecidableEq, Repr

/-- The generic socket record as the dispatch layer sees it for
close/cleanup: whether an introspection channel is attached, and what
the transport's close op returns for this socket. -/
structure GenSocket where
  has_ctl : Bool
  close_rc : Int
deriving DecidableEq, Repr

/-- xcm_tp_socket_close (xcm_tp.c:99): rc is 0 and nothing runs when the
socket is NULL; otherwise the channel is destroyed and the transport's
close op decides the rc. -/
def xcm_tp_socket_close (s : Option GenSocket) : Int × List CloseAction :=
  match s with
  | none => (0, [])
  | some g => (g.close_rc, [CloseAction.ctl_destroy, CloseAction.tp_close])

/-- xcm_tp_socket_cleanup (xcm_tp.c:112): nothing runs when the socket
is NULL. -/
def xcm_tp_socket_cleanup (s : Option GenSocket) : List CloseAction :=
  match s with
  | none => []
  | some _ => [CloseAction.ctl_destroy, CloseAction.tp_cleanup]

/-- MAX_CLIENTS (ctl.c:25). -/
def MAX_CLIENTS : Nat := 2

/-- DEFAULT_CALLS_PER_ACCEPT (ctl.c:307). -/
def DEFAULT_CALLS_PER_ACCEPT : Nat := 64

/-- DEFAULT_CALLS_PER_SEND_RECEIVE (ctl.c:308). -/
def DEFAULT_CALLS_PER_SEND_RECEIVE : Nat := 8

/-- struct client (ctl.c:27): the descriptor and whether a response is
pending (the response record itself is immaterial to the claims). -/
structure CtlClient where
  fd : Nat
  is_response_pending : Bool
deriving DecidableEq, Repr

/-- struct ctl (ctl.c:34): listener descriptor, connected clients,
the epoll registration set (by descriptor), and the call counter. -/
structure Ctl where
  server_fd : Nat
  clients : List CtlClient
  reg_set : List Nat
  calls_since_process : Nat
deriving DecidableEq, Repr

/-- epoll_reg_set_add: register a descriptor in the readiness registry
(membership semantics; event flags are immaterial to the claims). -/
def epoll_reg_set_add (rs : List Nat) (fd : Nat) : List Nat := fd :: rs

/-- epoll_reg_set_del: deregister a descriptor. -/
def epoll_reg_set_del (rs : List Nat) (fd : Nat) : List Nat :=
  rs.filter (fun f => f ≠ fd)

/-- min_calls (ctl.c:325) in a build without SCTP support: 8 when at
least one channel client is connected, 64 otherwise. -/
def min_calls (ctl : Ctl) : Nat :=
  if 0 < ctl.clients.length then DEFAULT_CALLS_PER_SEND_RECEIVE
  else DEFAULT_CALLS_PER_ACCEPT

/-- remove_client (ctl.c:117): deregister and close the client's
descriptor, move the last client into its slot, re-register the
listener when the channel was at the cap, and shrink the client count.
Call sites always pass an in-range idx; an out-of-range idx leaves the
state unchanged.  errno is protected around the close. -/
def remove_client (ctl : Ctl) (idx : Nat) : Ctl :=
  match ctl.clients[idx]? with
  | none => ctl
  | some rclient =>
    let reg1 := epoll_reg_set_del ctl.reg_set rclient.fd
    let last_idx := ctl.clients.length - 1
    let clients1 :=
      if idx ≠ last_idx then
        ctl.clients.set idx ((ctl.clients[last_idx]?).getD rclient)
      else ctl.clients
    let reg2 :=
      if ctl.clients.length = MAX_CLIENTS then
        epoll_reg_set_add reg1 ctl.server_fd
      else reg1
    { ctl with clients := clients1.dropLast, reg_set := reg2 }

/-- Outcome the OS would report for a send on one client's descriptor. -/
inductive SendRes where
  | s_ok
  | s_again
  | s_err (errno : Nat)
deriving DecidableEq, Repr

/-- Outcome the OS would report for a recv on one client's descriptor:
would-block, an error, a short (malformed) record, or a full request
record whose type is known or unknown. -/
inductive RecvRes where
  | r_again
  | r_err (errno : Nat)
  | r_short
  | r_req (known : Bool)
deriving DecidableEq, Repr

/-- What the OS would report for one client's send and recv this step. -/
structure ClientIO where
  send_res : SendRes
  recv_res : RecvRes
deriving DecidableEq, Repr

/-- process_client (ctl.c:217): returns the updated client and whether
the call succeeded (rc 0), as opposed to failing (rc -1: an I/O error
other than EAGAIN, a malformed (short) request, or an unknown request
type).  Every OS call inside is wrapped in UT_SAVE_ERRNO /
UT_RESTORE_ERRNO, so the caller's errno is untouched. -/
def process_client (io : ClientIO) (c : CtlClient) : CtlClient × Bool :=
  if c.is_response_pending then
    match io.send_res with
    | SendRes.s_again => (c, true)
    | SendRes.s_err _ => (c, false)
    | SendRes.s_ok => ({ c with is_response_pending := false }, true)
  else
    match io.recv_res with
    | RecvRes.r_again => (c, true)
    | RecvRes.r_err _ => (c, false)
    | RecvRes.r_short => (c, false)
    | RecvRes.r_req known =>
      if known then ({ c with is_response_pending := true }, true)
      else ({ c with is_response_pending := false }, false)

/-- Outcome of accept(2) on the channel listener: no connection (with
the errno accept leaves behind), or a fresh descriptor together with the
outcome of the subsequent ut_set_blocking call. -/
inductive AcceptRes where
  | no_conn (errno : Nat)
  | conn (fd : Nat) (nonblock_err : Option Nat)
deriving DecidableEq, Repr

/-- accept_client (ctl.c:274): returns the updated state and errno.
accept and fcntl failures leave their errno behind (the enclosing
ctl_process restores it); on success the new client is appended and the
listener is deregistered when the cap is reached. -/
def accept_client (r : AcceptRes) (ctl : Ctl) (errno : Nat) : Ctl × Nat :=
  match r with
  | AcceptRes.no_conn e => (ctl, e)
  | AcceptRes.conn fd nonblock_err =>
    match nonblock_err with
    | some e => (ctl, e)
    | none =>
      let reg1 := epoll_reg_set_add ctl.reg_set fd
      let clients1 := ctl.clients ++ [⟨fd, false⟩]
      let reg2 :=
        if clients1.length = MAX_CLIENTS then
          epoll_reg_set_del reg1 ctl.server_fd
        else reg1
      ({ ctl with clients := clients1, reg_set := reg2 }, errno)

/-- Per-step environment of ctl_process: what the OS reports for each
client descriptor, and for accept on the listener. -/
structure CtlEnv where
  io : Nat → ClientIO
  acc : AcceptRes

mutual

/-- The client loop of ctl_process (ctl.c:349-355): process each client
in index order; on failure remove it and re-invoke ctl_process (the
"restart" in the source).  fuel bounds that internal recursion and is
ample for every state within the client cap. -/
def process_loop (fuel : Nat) (env : CtlEnv) (ctl : Ctl) (errno : Nat)
    (i : Nat) : Ctl × Nat :=
  match fuel with
  | 0 => (ctl, errno)
  | fuel' + 1 =>
    match ctl.clients[i]? with
    | none => (ctl, errno)
    | some c =>
      let pc := process_client (env.io c.fd) c
      let ctl1 := { ctl with clients := ctl.clients.set i pc.1 }
      if pc.2 then
        process_loop fuel' env ctl1 errno (i + 1)
      else
        let ctl2 := remove_client ctl1 i
        let r := ctl_process_go fuel' env ctl2 errno
        process_loop fuel' env r.1 r.2 (i + 1)

/-- ctl_process (ctl.c:337): bump the call counter and return unless it
reached min_calls; otherwise reset it, run the client loop and (below
the cap) one accept, with errno saved on entry and restored on exit. -/
def ctl_process_go (fuel : Nat) (env : CtlEnv) (ctl : Ctl) (errno : Nat) :
    Ctl × Nat :=
  match fuel with
  | 0 => (ctl, errno)
  | fuel' + 1 =>
    let ctl1 := { ctl with calls_since_process := ctl.calls_since_process + 1 }
    if ctl1.calls_since_process < min_calls ctl1 then (ctl1, errno)
    else
      let ctl2 := { ctl1 with calls_since_process := 0 }
      let r := process_loop fuel' env ctl2 errno 0
      let r2 :=
        if r.1.clients.length < MAX_CLIENTS then accept_client env.acc r.1 r.2
        else r
      (r2.1, errno)

end

/-- ctl_process entry point; the fuel is ample for every state within
the client cap (claim C5's invariant). -/
def ctl_process (env : CtlEnv) (ctl : Ctl) (errno : Nat) : Ctl × Nat :=
  ctl_process_go (4 * ctl.clients.length + 8) env ctl errno

/-- do_ctl (xcm_tp.c:71): run a channel step when a channel is
attached. -/
def do_ctl (env : CtlEnv) (ctlOpt : Option Ctl) (errno : Nat) :
    Option Ctl × Nat :=
  match ctlOpt with
  | some ctl =>
    let r := ctl_process env ctl errno
    (some r.1, r.2)
  | none => (none, errno)

/-- Shape of an app-facing operation (xcm_tp_socket_send and friends,
xcm_tp.c:132): do_ctl first, then the transport op; the op's return
code and resulting errno are what the application sees. -/
def xcm_tp_socket_app_op (env : CtlEnv) (ctlOpt : Option Ctl) (errno : Nat)
    (op : Nat → Int × Nat) : (Int × Nat) × Option Ctl :=
  let d := do_ctl env ctlOpt errno
  (op d.2, d.1)

/-- get_str_attr (xcm_tp.c:227): value is the byte string of the
attribute (a C string, no interior NUL), buf the caller's buffer,
capacity its size.  Returns the rc, the buffer afterwards, and the
errno afterwards; strcpy writes the value plus the terminating NUL. -/
def get_str_attr (value : List Nat) (buf : List Nat) (capacity : Nat)
    (errno : Nat) : Int × List Nat × Nat :=
  let len := value.length
  if capacity ≤ len then (-1, buf, EOVERFLOW)
  else ((len : Int) + 1, value ++ 0 :: buf.drop (len + 1), errno)

/-- The single byte a C bool occupies. -/
def bool_byte (b : Bool) : Nat := if b then 1 else 0

/-- get_bool_attr (xcm_tp.c:252); sizeof(bool) is 1. -/
def get_bool_attr (value : Bool) (buf : List Nat) (capacity : Nat)
    (errno : Nat) : Int × List Nat × Nat :=
  if capacity < 1 then (-1, buf, EOVERFLOW)
  else (1, bool_byte value :: buf.drop 1, errno)

/-- The 8 bytes an int64 occupies on the target (little-endian), as
memcpy copies them. -/
def int64_bytes (v : Nat) : List Nat :=
  [v % 256, v / 256 % 256, v / 256 ^ 2 % 256, v / 256 ^ 3 % 256,
   v / 256 ^ 4 % 256, v / 256 ^ 5 % 256, v / 256 ^ 6 % 256,
   v / 256 ^ 7 % 256]

/-- get_max_msg_attr (xcm_tp.c:329): ENOENT on a non-connection socket,
EOVERFLOW when the buffer cannot hold an int64, otherwise the 8-byte
value and rc 8. -/
def get_max_msg_attr (typ : SocketType) (max_msg : Nat) (buf : List Nat)
    (capacity : Nat) (errno : Nat) : Int × List Nat × Nat :=
  if typ ≠ SocketType.conn then (-1, buf, ENOENT)
  else if capacity < 8 then (-1, buf, EOVERFLOW)
  else (8, int64_bytes max_msg ++ buf.drop 8, errno)

/-- MAX_PROTOS (xcm_tp.c:430). -/
def MAX_PROTOS : Nat := 8

/-- XCM_ADDR_MAX_PROTO_LEN (xcm_addr_limits.h, a header not among the
sources).  Modelled from the spec: protocol tags are short fixed
strings; the exact bound is immaterial to the claims, any value covering
the registered tags works. -/
def XCM_ADDR_MAX_PROTO_LEN : Nat := 8

/-- struct xcm_tp_proto (registry entry): the protocol name and an
opaque handle standing for the ops-table pointer. -/
structure TpProto where
  name : String
  ops : Nat
deriving DecidableEq, Repr

/-- The protocol registry (protos array plus num_protos,
xcm_tp.c:431). -/
structure TpRegistry where
  protos : List TpProto
deriving DecidableEq, Repr

/-- xcm_tp_proto_by_name (xcm_tp.c:434): linear scan for the name. -/
def xcm_tp_proto_by_name (reg : TpRegistry) (proto_name : String) :
    Option TpProto :=
  reg.protos.find? (fun p => p.name == proto_name)

/-- xcm_tp_register (xcm_tp.c:457): the ut_assert guards (free slot,
name within bounds, no duplicate) abort the process on failure,
modelled as none; on success the entry is appended. -/
def xcm_tp_register (reg : TpRegistry) (proto_name : String) (ops : Nat) :
    Option TpRegistry :=
  if reg.protos.length < MAX_PROTOS ∧
      proto_name.length ≤ XCM_ADDR_MAX_PROTO_LEN ∧
      xcm_tp_proto_by_name reg proto_name = none then
    some ⟨reg.protos ++ [⟨proto_name, ops⟩]⟩
  else none

/-- C1: reading the xcm.transport attribute (the get_transport
operation) on a UTLS connection socket created by connect or accept
yields the protocol tag of the active inner socket, "ux" or "tls", and
never "utls"; on a UTLS server socket it yields "utls". -/
theorem C1_utls_transport_masquerade (ux0 tls0 : SubSocket)
    (hux : ux0.proto = XCM_UX_PROTO) (htls : tls0.proto = XCM_TLS_PROTO) :
    (∀ env s, (utls_connect env ux0 tls0).1 = some s →
       (utls_get_transport s = some XCM_UX_PROTO ∨
        utls_get_transport s = some XCM_TLS_PROTO) ∧
       utls_get_transport s ≠ some XCM_UTLS_PROTO) ∧
    (∀ env s, (utls_accept env ux0 tls0).1 = some s →
       (utls_get_transport s = some XCM_UX_PROTO ∨
        utls_get_transport s = some XCM_TLS_PROTO) ∧
       utls_get_transport s ≠ some XCM_UTLS_PROTO) ∧
    (∀ uxs tlss,
       utls_get_transport ⟨SocketType.server, uxs, tlss⟩ =
         some XCM_UTLS_PROTO) := by
  refine ⟨?_, ?_, ?_⟩
  · rintro ⟨p, u, t⟩ s h
    cases p with
    | false => simp [utls_connect] at h
    | true =>
      cases u with
      | ok =>
        simp [utls_connect] at h
        subst h
        constructor
        · left
          simp [utls_get_transport, active_sub_conn, xcm_tp_sub_get_transport,
                hux]
        · simp [utls_get_transport, active_sub_conn, xcm_tp_sub_get_transport,
                hux, XCM_UX_PROTO, XCM_UTLS_PROTO]
      | err e =>
        by_cases he : e = ECONNREFUSED
        · cases t with
          | ok =>
            simp [utls_connect, he] at h
            subst h
            constructor
            · right
              simp [utls_get_transport, active_sub_conn,
                    xcm_tp_sub_get_transport, htls]
            · simp [utls_get_transport, active_sub_conn,
                    xcm_tp_sub_get_transport, htls, XCM_TLS_PROTO,
                    XCM_UTLS_PROTO]
          | err e2 => simp [utls_connect, he] at h
        · simp [utls_connect, he] at h
  · rintro ⟨uok, tok⟩ s h
    cases uok with
    | true =>
      simp [utls_accept] at h
      subst h
      constructor
      · left
        simp [utls_get_transport, active_sub_conn, xcm_tp_sub_get_transport,
              hux]
      · simp [utls_get_transport, active_sub_conn, xcm_tp_sub_get_transport,
              hux, XCM_UX_PROTO, XCM_UTLS_PROTO]
    | false =>
      cases tok with
      | true =>
        simp [utls_accept] at h
        subst h
        constructor
        · right
          simp [utls_get_transport, active_sub_conn,
                xcm_tp_sub_get_transport, htls]
        · simp [utls_get_transport, active_sub_conn,
                xcm_tp_sub_get_transport, htls, XCM_TLS_PROTO, XCM_UTLS_PROTO]
      | false => simp [utls_accept] at h
  · intro uxs tlss
    simp [utls_get_transport]

/-- Witness for C1 at concrete inner sockets: a connection made over the
UX path reports "ux", and a UTLS server socket reports "utls". -/
theorem C1_utls_transport_masquerade_witness :
    utls_get_transport ⟨SocketType.conn, some ⟨"ux", 0⟩, none⟩ =
      some XCM_UX_PROTO ∧
    utls_get_transport ⟨SocketType.server, none, none⟩ =
      some XCM_UTLS_PROTO := by
  have h := C1_utls_transport_masquerade ⟨"ux", 0⟩ ⟨"tls", 1⟩ rfl rfl
  have h1 := h.1 ⟨true, SysRes.ok, SysRes.ok⟩
    ⟨SocketType.conn, some ⟨"ux", 0⟩, none⟩ rfl
  refine ⟨?_, h.2.2 none none⟩
  rcases h1.1 with h2 | h2
  · exact h2
  · exact absurd h2 (by decide)

/-- C2: for a UTLS client connect with a parseable address, the UX
connect is attempted first; if it succeeds the TLS inner socket is
closed and released and connect succeeds; if it fails with ECONNREFUSED
the TLS connect is attempted and on its success the UX inner socket is
released; on any other UX error connect fails without attempting TLS. -/
theorem C2_utls_connect_fallback (env : ConnectEnv) (ux0 tls0 : SubSocket)
    (hp : env.parse_ok = true) :
    (utls_connect env ux0 tls0).2.head? = some UtlsAction.connect_ux ∧
    (env.ux_res = SysRes.ok →
       utls_connect env ux0 tls0 =
         (some ⟨SocketType.conn, some ux0, none⟩,
          [UtlsAction.connect_ux, UtlsAction.close_tls,
           UtlsAction.destroy_tls])) ∧
    (env.ux_res = SysRes.err ECONNREFUSED →
       UtlsAction.connect_tls ∈ (utls_connect env ux0 tls0).2 ∧
       (env.tls_res = SysRes.ok →
          utls_connect env ux0 tls0 =
            (some ⟨SocketType.conn, none, some tls0⟩,
             [UtlsAction.connect_ux, UtlsAction.connect_tls,
              UtlsAction.destroy_ux]))) ∧
    (∀ e, env.ux_res = SysRes.err e → e ≠ ECONNREFUSED →
       (utls_connect env ux0 tls0).1 = none ∧
       UtlsAction.connect_tls ∉ (utls_connect env ux0 tls0).2) := by
  obtain ⟨p, u, t⟩ := env
  simp only at hp
  subst hp
  refine ⟨?_, ?_, ?_, ?_⟩
  · cases u with
    | ok => simp [utls_connect]
    | err e =>
      by_cases he : e = ECONNREFUSED
      · cases t <;> simp [utls_connect, he]
      · simp [utls_connect, he]
  · intro hu
    simp only at hu
    subst hu
    simp [utls_connect]
  · intro hu
    simp only at hu
    subst hu
    cases t with
    | ok => simp [utls_connect]
    | err e2 => simp [utls_connect]
  · intro e hu he
    simp only at hu
    subst hu
    simp [utls_connect, he]

/-- Witness for C2 at a concrete environment: the UX connect refused,
the TLS connect succeeding, yielding a TLS-backed connection. -/
theorem C2_utls_connect_fallback_witness :
    utls_connect ⟨true, SysRes.err ECONNREFUSED, SysRes.ok⟩
        ⟨"ux", 0⟩ ⟨"tls", 1⟩ =
      (some ⟨SocketType.conn, none, some ⟨"tls", 1⟩⟩,
       [UtlsAction.connect_ux, UtlsAction.connect_tls,
        UtlsAction.destroy_ux]) :=
  ((C2_utls_connect_fallback ⟨true, SysRes.err ECONNREFUSED, SysRes.ok⟩
      ⟨"ux", 0⟩ ⟨"tls", 1⟩ rfl).2.2.1 rfl).2 rfl

/-- C3: accepting on a UTLS server socket with a pending connection
tries the UX listener first; the returned connection socket carries
exactly one non-null inner socket, the other having been destroyed, and
the send, receive, max_msg and counter operations all dispatch to that
single inner socket. -/
theorem C3_utls_accept_single_inner (env : AcceptEnv) (ux0 tls0 : SubSocket)
    (hpend : env.ux_ok = true ∨ env.tls_ok = true) :
    (utls_accept env ux0 tls0).2.head? = some UtlsAction.accept_ux ∧
    (env.ux_ok = true →
       UtlsAction.accept_tls ∉ (utls_accept env ux0 tls0).2) ∧
    ∃ s inner, (utls_accept env ux0 tls0).1 = some s ∧
      ((s.ux_socket = some inner ∧ s.tls_socket = none ∧ inner = ux0 ∧
          UtlsAction.destroy_tls ∈ (utls_accept env ux0 tls0).2) ∨
       (s.ux_socket = none ∧ s.tls_socket = some inner ∧ inner = tls0 ∧
          UtlsAction.destroy_ux ∈ (utls_accept env ux0 tls0).2)) ∧
      active_sub_conn s = some inner ∧
      (∀ f : SubSocket → Int, utls_send f s = some (f inner)) ∧
      (∀ f : SubSocket → Int, utls_receive f s = some (f inner)) ∧
      (∀ f : SubSocket → Nat, utls_max_msg f s = some (f inner)) ∧
      (∀ f : SubSocket → Nat, utls_get_cnt f s = some (f inner)) := by
  obtain ⟨uok, tok⟩ := env
  cases uok with
  | true =>
    refine ⟨by simp [utls_accept], by simp [utls_accept], ?_⟩
    refine ⟨⟨SocketType.conn, some ux0, none⟩, ux0, by simp [utls_accept], ?_,
            ?_, ?_, ?_, ?_, ?_⟩
    · left
      simp [utls_accept]
    · simp [active_sub_conn]
    · intro f
      simp [utls_send, active_sub_conn]
    · intro f
      simp [utls_receive, active_sub_conn]
    · intro f
      simp [utls_max_msg, active_sub_conn]
    · intro f
      simp [utls_get_cnt, active_sub_conn]
  | false =>
    cases tok with
    | true =>
      refine ⟨by simp [utls_accept], by simp, ?_⟩
      refine ⟨⟨SocketType.conn, none, some tls0⟩, tls0, by simp [utls_accept],
              ?_, ?_, ?_, ?_, ?_, ?_⟩
      · right
        simp [utls_accept]
      · simp [active_sub_conn]
      · intro f
        simp [utls_send, active_sub_conn]
      · intro f
        simp [utls_receive, active_sub_conn]
      · intro f
        simp [utls_max_msg, active_sub_conn]
      · intro f
        simp [utls_get_cnt, active_sub_conn]
    | false =>
      rcases hpend with h | h <;> exact absurd h (by decide)

/-- Witness for C3 at a concrete environment with a pending connection
on the TLS listener only: the UX listener is still tried first. -/
theorem C3_utls_accept_single_inner_witness :
    (utls_accept ⟨false, true⟩ ⟨"ux", 0⟩ ⟨"tls", 1⟩).2.head? =
      some UtlsAction.accept_ux :=
  (C3_utls_accept_single_inner ⟨false, true⟩ ⟨"ux", 0⟩ ⟨"tls", 1⟩
    (Or.inr rfl)).1

/-- C4: every successful UTLS server creation binds the TLS listener
before the UX listener; with a requested port of 0 the kernel-assigned
port is parsed back out of the TLS sub-socket's local address and used
verbatim in the UX listener address, so the two listeners share the same
host:port pair. -/
theorem C4_utls_server_addresses (env : ServerEnv) (srv : UtlsServerSocket)
    (h : (utls_server env).1 = some srv) :
    (∃ a b, (utls_server env).2 =
       [ServerAction.bind_tls a, ServerAction.bind_ux b]) ∧
    srv.tls_addr.proto = XCM_TLS_PROTO ∧
    srv.ux_addr = map_tls_to_ux srv.tls_addr ∧
    srv.ux_addr.proto = XCM_UX_PROTO ∧
    srv.ux_addr.host = srv.tls_addr.host ∧
    srv.ux_addr.port = srv.tls_addr.port ∧
    (∀ host, env.parse = some (host, 0) →
       srv.tls_addr = env.tls_local_addr ∧ 0 < env.tls_local_addr.port) ∧
    (∀ host port, env.parse = some (host, port) → port ≠ 0 →
       srv.tls_addr = xcm_addr_make_tls host port) := by
  obtain ⟨pr, tbind, tladdr, ubind⟩ := env
  cases pr with
  | none => simp [utls_server] at h
  | some hp =>
    obtain ⟨host, port⟩ := hp
    cases tbind with
    | false => simp [utls_server] at h
    | true =>
      by_cases hport : port = 0
      · subst hport
        rcases hpt : xcm_addr_parse_tls tladdr with _ | ⟨h2, p2⟩
        · simp [utls_server, hpt] at h
        · by_cases hp2 : 0 < p2
          · cases ubind with
            | false => simp [utls_server, hpt, hp2] at h
            | true =>
              simp [utls_server, hpt, hp2] at h
              subst h
              have hproto : tladdr.proto = XCM_TLS_PROTO := by
                by_contra hc
                simp [xcm_addr_parse_tls, hc] at hpt
              have hport2 : tladdr.port = p2 := by
                simp [xcm_addr_parse_tls, hproto] at hpt
                exact hpt.2
              refine ⟨⟨xcm_addr_make_tls host 0, map_tls_to_ux tladdr,
                        by simp [utls_server, hpt, hp2]⟩, hproto, rfl,
                      rfl, rfl, rfl, ?_, ?_⟩
              · intro host2 hpr
                simp only [Option.some.injEq, Prod.mk.injEq] at hpr
                exact ⟨rfl, hport2 ▸ hp2⟩
              · intro host2 port2 hpr hne
                simp only [Option.some.injEq, Prod.mk.injEq] at hpr
                exact absurd hpr.2.symm hne
          · simp [utls_server, hpt, hp2] at h
      · cases ubind with
        | false => simp [utls_server, hport] at h
        | true =>
          simp [utls_server, hport] at h
          subst h
          refine ⟨⟨xcm_addr_make_tls host port,
                    map_tls_to_ux (xcm_addr_make_tls host port),
                    by simp [utls_server, hport]⟩, rfl, rfl, rfl, rfl,
                  rfl, ?_, ?_⟩
          · intro host2 hpr
            simp only [Option.some.injEq, Prod.mk.injEq] at hpr
            exact absurd hpr.2 hport
          · intro host2 port2 hpr hne
            simp only [Option.some.injEq, Prod.mk.injEq] at hpr
            rw [hpr.1, hpr.2]

/-- Witness for C4 at a concrete environment requesting port 0, the
kernel assigning port 14001: both listeners end up on 127.0.0.1:14001. -/
theorem C4_utls_server_addresses_witness :
    (utls_server ⟨some ("127.0.0.1", 0), true,
        ⟨"tls", "127.0.0.1", 14001⟩, true⟩).1 =
      some ⟨⟨"tls", "127.0.0.1", 14001⟩, ⟨"ux", "127.0.0.1", 14001⟩⟩ ∧
    (⟨⟨"tls", "127.0.0.1", 14001⟩, ⟨"ux", "127.0.0.1", 14001⟩⟩ :
        UtlsServerSocket).ux_addr.port =
      (⟨⟨"tls", "127.0.0.1", 14001⟩, ⟨"ux", "127.0.0.1", 14001⟩⟩ :
        UtlsServerSocket).tls_addr.port := by
  refine ⟨rfl, ?_⟩
  exact (C4_utls_server_addresses
    ⟨some ("127.0.0.1", 0), true, ⟨"tls", "127.0.0.1", 14001⟩, true⟩
    ⟨⟨"tls", "127.0.0.1", 14001⟩, ⟨"ux", "127.0.0.1", 14001⟩⟩
    rfl).2.2.2.2.2.1

/-- C10: closing or cleaning up a NULL socket is a safe no-op: the
generic close returns 0 and performs nothing, the generic cleanup
performs nothing, and the same holds for the UTLS transport's close and
cleanup. -/
theorem C10_null_close_noop :
    xcm_tp_socket_close none = (0, []) ∧
    xcm_tp_socket_cleanup none = [] ∧
    (∀ env, utls_close none env = (0, [])) ∧
    utls_cleanup none = [] :=
  ⟨rfl, rfl, fun _ => rfl, rfl⟩

/-- process_client never changes the client's descriptor. -/
theorem process_client_fd (io : ClientIO) (c : CtlClient) :
    (process_client io c).1.fd = c.fd := by
  obtain ⟨sr, rr⟩ := io
  obtain ⟨fd, pend⟩ := c
  cases pend <;> cases sr <;> cases rr <;>
    simp [process_client] <;> split <;> rfl

/-- accept_client never touches the call counter. -/
theorem accept_client_counter (r : AcceptRes) (ctl : Ctl) (errno : Nat) :
    (accept_client r ctl errno).1.calls_since_process =
      ctl.calls_since_process := by
  cases r with
  | no_conn e => rfl
  | conn fd nb => cases nb <;> rfl

/-- ctl_process_go restores the errno it was entered with. -/
theorem ctl_process_go_errno (fuel : Nat) (env : CtlEnv) (ctl : Ctl)
    (errno : Nat) : (ctl_process_go fuel env ctl errno).2 = errno := by
  cases fuel with
  | zero => rfl
  | succ f =>
    simp only [ctl_process_go]
    split
    · rfl
    · rfl

/-- ctl_process unfolded to an explicit successor fuel. -/
theorem ctl_process_succ_form (env : CtlEnv) (ctl : Ctl) (errno : Nat) :
    ctl_process env ctl errno =
      ctl_process_go ((4 * ctl.clients.length + 7) + 1) env ctl errno := rfl

/-- Membership in the registry after a delete. -/
theorem mem_del_iff (rs : List Nat) (fd x : Nat) :
    x ∈ epoll_reg_set_del rs fd ↔ x ∈ rs ∧ x ≠ fd := by
  simp [epoll_reg_set_del, List.mem_filter]

/-- The invariant of claim C5 on a channel state: at most MAX_CLIENTS
clients, the listener registered exactly while below the cap, and no
client descriptor aliasing the listener's. -/
def ctl_inv (ctl : Ctl) : Prop :=
  ctl.clients.length ≤ MAX_CLIENTS ∧
  (ctl.server_fd ∈ ctl.reg_set ↔ ctl.clients.length < MAX_CLIENTS) ∧
  ∀ c ∈ ctl.clients, c.fd ≠ ctl.server_fd

/-- Well-formed accept outcomes: a freshly accepted descriptor is never
the listener's own. -/
def acc_wf (sfd : Nat) (r : AcceptRes) : Prop :=
  ∀ fd nb, r = AcceptRes.conn fd nb → fd ≠ sfd

/-- remove_client preserves the C5 invariant (and the listener
descriptor). -/
theorem remove_client_inv (ctl : Ctl) (idx : Nat) (h : ctl_inv ctl) :
    ctl_inv (remove_client ctl idx) ∧
    (remove_client ctl idx).server_fd = ctl.server_fd := by
  obtain ⟨hlen, hreg, hfds⟩ := h
  rcases hidx : ctl.clients[idx]? with _ | rclient
  · simp only [remove_client, hidx]
    exact ⟨⟨hlen, hreg, hfds⟩, trivial⟩
  · have hidx_lt : idx < ctl.clients.length := by
      rw [List.getElem?_eq_some] at hidx
      exact hidx.1
    have hrmem : rclient ∈ ctl.clients := List.getElem?_mem hidx
    have hRfd : rclient.fd ≠ ctl.server_fd := hfds _ hrmem
    have hpos : 0 < ctl.clients.length :=
      Nat.lt_of_le_of_lt (Nat.zero_le _) hidx_lt
    have hnew : ctl.clients.length - 1 < MAX_CLIENTS := by
      simp only [MAX_CLIENTS] at *
      omega
    simp only [remove_client, hidx]
    have hsub : ∀ c, c ∈ (if idx ≠ ctl.clients.length - 1 then
        ctl.clients.set idx ((ctl.clients[ctl.clients.length - 1]?).getD rclient)
      else ctl.clients) → c ∈ ctl.clients := by
      intro c hc
      split at hc
      · rcases List.mem_or_eq_of_mem_set hc with h1 | h1
        · exact h1
        · rcases hl : ctl.clients[ctl.clients.length - 1]? with _ | last
          · rw [hl] at h1
            simp at h1
            exact h1 ▸ hrmem
          · rw [hl] at h1
            simp at h1
            exact h1 ▸ List.getElem?_mem hl
      · exact hc
    have hlen1 : (if idx ≠ ctl.clients.length - 1 then
        ctl.clients.set idx ((ctl.clients[ctl.clients.length - 1]?).getD rclient)
      else ctl.clients).length = ctl.clients.length := by
      split <;> simp
    refine ⟨⟨?_, ?_, ?_⟩, trivial⟩
    · simp only [List.length_dropLast, hlen1]
      omega
    · simp only [List.length_dropLast, hlen1]
      constructor
      · intro _
        exact hnew
      · intro _
        by_cases hM : ctl.clients.length = MAX_CLIENTS
        · rw [if_pos hM]
          simp [epoll_reg_set_add]
        · rw [if_neg hM]
          rw [mem_del_iff]
          refine ⟨hreg.mpr ?_, Ne.symm hRfd⟩
          simp only [MAX_CLIENTS] at *
          omega
    · intro c hc
      exact hfds _ (hsub _ (List.dropLast_subset _ hc))

/-- accept_client, called below the cap with a fresh descriptor,
preserves the C5 invariant (and the listener descriptor). -/
theorem accept_client_inv (r : AcceptRes) (ctl : Ctl) (errno : Nat)
    (hw : acc_wf ctl.server_fd r) (hlt : ctl.clients.length < MAX_CLIENTS)
    (h : ctl_inv ctl) :
    ctl_inv (accept_client r ctl errno).1 ∧
    (accept_client r ctl errno).1.server_fd = ctl.server_fd := by
  obtain ⟨hlen, hreg, hfds⟩ := h
  cases r with
  | no_conn e => exact ⟨⟨hlen, hreg, hfds⟩, rfl⟩
  | conn fd nb =>
    have hfd : fd ≠ ctl.server_fd := hw fd nb rfl
    cases nb with
    | some e => exact ⟨⟨hlen, hreg, hfds⟩, rfl⟩
    | none =>
      simp only [accept_client]
      refine ⟨⟨?_, ?_, ?_⟩, trivial⟩
      · simp only [List.length_append, List.length_singleton]
        simp only [MAX_CLIENTS] at *
        omega
      · simp only [List.length_append, List.length_singleton]
        by_cases hM : ctl.clients.length + 1 = MAX_CLIENTS
        · rw [if_pos (by simpa using hM)]
          rw [mem_del_iff]
          simp only [MAX_CLIENTS] at *
          omega
        · rw [if_neg (by simpa using hM)]
          simp only [epoll_reg_set_add, List.mem_cons]
          constructor
          · rintro (h1 | h1)
            · exact absurd h1.symm hfd
            · simp only [MAX_CLIENTS] at *
              omega
          · intro _
            exact Or.inr (hreg.mpr hlt)
      · intro c hc
        rcases List.mem_append.mp hc with h1 | h1
        · exact hfds _ h1
        · simp at h1
          rw [h1]
          exact hfd

/-- The C5 invariant is preserved by ctl_process_go and by the client
loop, for every fuel, whenever accepted descriptors are fresh. -/
theorem ctl_process_go_loop_inv (fuel : Nat) :
    (∀ env ctl errno, acc_wf ctl.server_fd env.acc → ctl_inv ctl →
       ctl_inv (ctl_process_go fuel env ctl errno).1 ∧
       (ctl_process_go fuel env ctl errno).1.server_fd = ctl.server_fd) ∧
    (∀ env ctl errno i, acc_wf ctl.server_fd env.acc → ctl_inv ctl →
       ctl_inv (process_loop fuel env ctl errno i).1 ∧
       (process_loop fuel env ctl errno i).1.server_fd = ctl.server_fd) := by
  induction fuel with
  | zero =>
    exact ⟨fun env ctl errno _ h => ⟨h, rfl⟩,
           fun env ctl errno i _ h => ⟨h, rfl⟩⟩
  | succ f ih =>
    constructor
    · intro env ctl errno hw hinv
      simp only [ctl_process_go]
      split
      · exact ⟨hinv, rfl⟩
      · have hloop := ih.2 env
          { ctl with calls_since_process := 0 } errno 0 hw hinv
        split
        case isTrue hlt =>
          have hacc := accept_client_inv env.acc
            (process_loop f env { ctl with calls_since_process := 0 } errno 0).1
            (process_loop f env { ctl with calls_since_process := 0 } errno 0).2
            (by rw [hloop.2]; exact hw) hlt hloop.1
          exact ⟨hacc.1, hacc.2.trans hloop.2⟩
        case isFalse hge =>
          exact hloop
    · intro env ctl errno i hw hinv
      simp only [process_loop]
      rcases hci : ctl.clients[i]? with _ | c
      · exact ⟨hinv, rfl⟩
      · simp only []
        have hinv1 : ctl_inv
            { ctl with clients :=
                ctl.clients.set i (process_client (env.io c.fd) c).1 } := by
          obtain ⟨hlen, hreg, hfds⟩ := hinv
          refine ⟨by simpa using hlen, by simpa using hreg, ?_⟩
          intro x hx
          rcases List.mem_or_eq_of_mem_set hx with h1 | h1
          · exact hfds _ h1
          · rw [h1, process_client_fd]
            exact hfds _ (List.getElem?_mem hci)
        split
        · exact ih.2 env _ errno (i + 1) hw hinv1
        · have hrem := remove_client_inv
            { ctl with clients :=
                ctl.clients.set i (process_client (env.io c.fd) c).1 } i hinv1
          have hgo := ih.1 env _ errno (by rw [hrem.2]; exact hw) hrem.1
          have hloop := ih.2 env _
            (ctl_process_go f env (remove_client
              { ctl with clients :=
                  ctl.clients.set i (process_client (env.io c.fd) c).1 } i)
              errno).2 (i + 1)
            (by rw [hgo.2, hrem.2]; exact hw) hgo.1
          exact ⟨hloop.1, (hloop.2.trans hgo.2).trans hrem.2⟩

/-- C5: the introspection channel never holds more than MAX_CLIENTS (2)
clients; the listener descriptor is registered exactly while below the
cap, so reaching two clients removes it from the readiness registry;
accepting a client that fills the cap deregisters the listener, and
removing a client while at the cap re-registers it. -/
theorem C5_client_cap (env : CtlEnv) (ctl : Ctl) (errno : Nat)
    (hw : acc_wf ctl.server_fd env.acc) (hinv : ctl_inv ctl) :
    ctl_inv (ctl_process env ctl errno).1 ∧
    (ctl_process env ctl errno).1.clients.length ≤ MAX_CLIENTS ∧
    (∀ ctl2 errno2 fd, ctl2.clients.length + 1 = MAX_CLIENTS →
       ctl2.server_fd ∉
         (accept_client (AcceptRes.conn fd none) ctl2 errno2).1.reg_set) ∧
    (∀ ctl2 idx c, ctl2.clients.length = MAX_CLIENTS →
       ctl2.clients[idx]? = some c →
       ctl2.server_fd ∈ (remove_client ctl2 idx).reg_set) := by
  have h := (ctl_process_go_loop_inv (4 * ctl.clients.length + 8)).1
    env ctl errno hw hinv
  refine ⟨h.1, h.1.1, ?_, ?_⟩
  · intro ctl2 errno2 fd hcap
    simp only [accept_client]
    rw [if_pos (by simpa using hcap)]
    rw [mem_del_iff]
    simp
  · intro ctl2 idx c hcap hidx
    simp only [remove_client, hidx]
    rw [if_pos hcap]
    simp [epoll_reg_set_add]

/-- Witness for C5 at a concrete state: starting from an empty channel
with a registered listener, one ctl_process call keeps the invariant. -/
theorem C5_client_cap_witness :
    ctl_inv (ctl_process
      ⟨fun _ => ⟨SendRes.s_ok, RecvRes.r_again⟩, AcceptRes.no_conn EAGAIN⟩
      ⟨5, [], [5], 0⟩ 0).1 :=
  (C5_client_cap
    ⟨fun _ => ⟨SendRes.s_ok, RecvRes.r_again⟩, AcceptRes.no_conn EAGAIN⟩
    ⟨5, [], [5], 0⟩ 0
    (by intro fd nb h; cases h)
    ⟨by decide, by simp [MAX_CLIENTS], by intro c hc; cases hc⟩).1

/-- When the counter reaches min_calls, ctl_process runs one processing
step: counter reset, client loop, one accept below the cap, errno
restored. -/
theorem ctl_process_trigger (env : CtlEnv) (ctl : Ctl) (errno : Nat)
    (h : min_calls ctl ≤ ctl.calls_since_process + 1) :
    ctl_process env ctl errno =
      ((if (process_loop (4 * ctl.clients.length + 7) env
             { ctl with calls_since_process := 0 } errno 0).1.clients.length <
            MAX_CLIENTS
        then accept_client env.acc
               (process_loop (4 * ctl.clients.length + 7) env
                 { ctl with calls_since_process := 0 } errno 0).1
               (process_loop (4 * ctl.clients.length + 7) env
                 { ctl with calls_since_process := 0 } errno 0).2
        else process_loop (4 * ctl.clients.length + 7) env
               { ctl with calls_since_process := 0 } errno 0).1,
       errno) := by
  rw [ctl_process_succ_form]
  simp only [ctl_process_go]
  rw [if_neg (by simp only [min_calls] at h ⊢; omega)]

/-- A client loop in which every reachable client call succeeds changes
neither the call counter nor the ambient errno. -/
theorem process_loop_all_ok (f : Nat) (env : CtlEnv) :
    ∀ (ctl : Ctl) (errno i : Nat),
    (∀ j, i ≤ j → ∀ c, ctl.clients[j]? = some c →
       (process_client (env.io c.fd) c).2 = true) →
    (process_loop f env ctl errno i).1.calls_since_process =
        ctl.calls_since_process ∧
    (process_loop f env ctl errno i).2 = errno := by
  induction f with
  | zero => intro ctl errno i hok; exact ⟨rfl, rfl⟩
  | succ f ih =>
    intro ctl errno i hok
    simp only [process_loop]
    rcases hci : ctl.clients[i]? with _ | c
    · exact ⟨rfl, rfl⟩
    · have hc := hok i le_rfl c hci
      simp only [hc, if_true]
      apply ih
      intro j hj d hd
      apply hok j (by omega) d
      rw [List.getElem?_set_ne (show i ≠ j by omega)] at hd
      exact hd

/-- One loop iteration past the end of the client list. -/
theorem process_loop_step_none (f : Nat) (env : CtlEnv) (ctl : Ctl)
    (errno i : Nat) (hci : ctl.clients[i]? = none) :
    process_loop (f + 1) env ctl errno i = (ctl, errno) := by
  simp only [process_loop, hci]

/-- One loop iteration on a client whose processing succeeds. -/
theorem process_loop_step_ok (f : Nat) (env : CtlEnv) (ctl : Ctl)
    (errno i : Nat) (c : CtlClient) (hci : ctl.clients[i]? = some c)
    (hok : (process_client (env.io c.fd) c).2 = true) :
    process_loop (f + 1) env ctl errno i =
      process_loop f env
        { ctl with clients :=
            ctl.clients.set i (process_client (env.io c.fd) c).1 }
        errno (i + 1) := by
  simp only [process_loop, hci, hok, if_true]

/-- One loop iteration on a client whose processing fails: the client is
removed and ctl_process re-invoked before the loop continues. -/
theorem process_loop_step_fail (f : Nat) (env : CtlEnv) (ctl : Ctl)
    (errno i : Nat) (c : CtlClient) (hci : ctl.clients[i]? = some c)
    (hfail : (process_client (env.io c.fd) c).2 = false) :
    process_loop (f + 1) env ctl errno i =
      process_loop f env
        (ctl_process_go f env (remove_client
          { ctl with clients :=
              ctl.clients.set i (process_client (env.io c.fd) c).1 }
          i) errno).1
        (ctl_process_go f env (remove_client
          { ctl with clients :=
              ctl.clients.set i (process_client (env.io c.fd) c).1 }
          i) errno).2
        (i + 1) := by
  simp only [process_loop, hci, hfail, Bool.false_eq_true, if_false]

/-- A ctl_process invocation below the threshold only bumps the call
counter. -/
theorem ctl_process_go_early (f : Nat) (env : CtlEnv) (ctl : Ctl)
    (errno : Nat) (h : ctl.calls_since_process + 1 < min_calls ctl) :
    ctl_process_go (f + 1) env ctl errno =
      ({ ctl with calls_since_process := ctl.calls_since_process + 1 },
       errno) := by
  simp only [ctl_process_go]
  rw [if_pos (by simp only [min_calls] at h ⊢; omega)]

/-- The client loop on a single failing client: the client is removed
and the internal ctl_process re-invocation leaves the counter at 1. -/
theorem process_loop_fail_single (f : Nat) (env : CtlEnv) (sfd : Nat)
    (reg : List Nat) (c : CtlClient) (errno : Nat)
    (hfail : (process_client (env.io c.fd) c).2 = false) :
    process_loop ((f + 1) + 1) env ⟨sfd, [c], reg, 0⟩ errno 0 =
      (⟨sfd, [], epoll_reg_set_del reg c.fd, 1⟩, errno) := by
  simp only [process_loop, ctl_process_go, remove_client, min_calls,
             List.getElem?_cons_zero, List.set_cons_zero, List.length_cons,
             List.length_nil, List.getElem?_nil, MAX_CLIENTS,
             DEFAULT_CALLS_PER_ACCEPT, hfail, Bool.false_eq_true, if_false,
             process_client_fd]
  norm_num

/-- The client loop on two clients of which the first succeeds and the
second fails: the second is removed (re-registering the listener, since
the channel was at the cap) and the counter is left at 1. -/
theorem process_loop_ok_fail_pair (f : Nat) (env : CtlEnv) (sfd : Nat)
    (reg : List Nat) (c1 c2 : CtlClient) (errno : Nat)
    (h1 : (process_client (env.io c1.fd) c1).2 = true)
    (h2 : (process_client (env.io c2.fd) c2).2 = false) :
    process_loop (((f + 1) + 1) + 1) env ⟨sfd, [c1, c2], reg, 0⟩ errno 0 =
      (⟨sfd, [(process_client (env.io c1.fd) c1).1],
        epoll_reg_set_add (epoll_reg_set_del reg c2.fd) sfd, 1⟩, errno) := by
  have hfd2 : (process_client (env.io c2.fd) c2).1.fd = c2.fd :=
    process_client_fd _ _
  rw [process_loop_step_ok ((f + 1) + 1) env ⟨sfd, [c1, c2], reg, 0⟩
      errno 0 c1 rfl h1]
  simp only [List.set_cons_zero]
  rw [process_loop_step_fail (f + 1) env
      ⟨sfd, [(process_client (env.io c1.fd) c1).1, c2], reg, 0⟩
      errno 1 c2 rfl h2]
  simp only [List.set_cons_succ, List.set_cons_zero]
  have hrem : remove_client
      ⟨sfd, [(process_client (env.io c1.fd) c1).1,
             (process_client (env.io c2.fd) c2).1], reg, 0⟩ 1 =
      ⟨sfd, [(process_client (env.io c1.fd) c1).1],
       epoll_reg_set_add (epoll_reg_set_del reg c2.fd) sfd, 0⟩ := by
    simp only [remove_client, List.getElem?_cons_succ, List.getElem?_cons_zero,
               List.length_cons, List.length_nil, MAX_CLIENTS, hfd2]
    norm_num
  rw [hrem]
  rw [ctl_process_go_early f env _ errno
      (by simp [min_calls, DEFAULT_CALLS_PER_SEND_RECEIVE])]
  exact process_loop_step_none f env _ _ 2 rfl

/-- C6 (amended): per app-facing ctl_process call the counter is bumped,
and a processing step runs exactly on the calls where it reaches N, with
N = 64 while no channel client is connected and N = 8 otherwise; the
counter is reset to zero at the start of each processing step and is
still zero on return when no client fails, while each client removed
during the step re-invokes ctl_process internally, leaving the counter
at the number of removed clients (1 for a single failing client). -/
theorem C6_call_pacing :
    (∀ ctl : Ctl, min_calls ctl =
       if 0 < ctl.clients.length then 8 else 64) ∧
    (∀ env ctl errno, ctl.calls_since_process + 1 < min_calls ctl →
       ctl_process env ctl errno =
         ({ ctl with calls_since_process := ctl.calls_since_process + 1 },
          errno)) ∧
    (∀ env ctl errno, min_calls ctl ≤ ctl.calls_since_process + 1 →
       (∀ c ∈ ctl.clients, (process_client (env.io c.fd) c).2 = true) →
       (ctl_process env ctl errno).1.calls_since_process = 0) ∧
    (∀ env ctl errno c, ctl.clients = [c] →
       min_calls ctl ≤ ctl.calls_since_process + 1 →
       (process_client (env.io c.fd) c).2 = false →
       (ctl_process env ctl errno).1.calls_since_process = 1) := by
  refine ⟨?_, ?_, ?_, ?_⟩
  · intro ctl
    simp [min_calls, DEFAULT_CALLS_PER_SEND_RECEIVE, DEFAULT_CALLS_PER_ACCEPT]
  · intro env ctl errno h
    rw [ctl_process_succ_form]
    exact ctl_process_go_early _ env ctl errno h
  · intro env ctl errno htrig hok
    rw [ctl_process_trigger env ctl errno htrig]
    have hloop := process_loop_all_ok (4 * ctl.clients.length + 7) env
      { ctl with calls_since_process := 0 } errno 0
      (by intro j hj d hd; exact hok d (List.getElem?_mem hd))
    simp only []
    split
    · rw [accept_client_counter]
      exact hloop.1
    · exact hloop.1
  · intro env ctl errno c hc htrig hfail
    rw [ctl_process_trigger env ctl errno htrig]
    rw [hc]
    rw [show (4 * List.length [c] + 7 : Nat) = ((9 + 1) + 1 : Nat) from rfl]
    rw [process_loop_fail_single 9 env ctl.server_fd ctl.reg_set c errno hfail]
    rw [if_pos (by simp [MAX_CLIENTS])]
    rw [accept_client_counter]

/-- C6 counterexample to the claim as stated: a channel whose single
client errors out on the processing call.  The counter reached N (= 8)
on this call, a processing step ran (the client was removed), and yet
the counter is 1, not 0, when ctl_process returns, because the removal
re-invoked ctl_process internally. -/
theorem C6_call_pacing_counterexample :
    min_calls ⟨5, [⟨7, false⟩], [5, 7], 7⟩ ≤
      (⟨5, [⟨7, false⟩], [5, 7], 7⟩ : Ctl).calls_since_process + 1 ∧
    (ctl_process ⟨fun _ => ⟨SendRes.s_ok, RecvRes.r_err 104⟩,
        AcceptRes.no_conn EAGAIN⟩ ⟨5, [⟨7, false⟩], [5, 7], 7⟩ 0).1.clients =
      [] ∧
    (ctl_process ⟨fun _ => ⟨SendRes.s_ok, RecvRes.r_err 104⟩,
        AcceptRes.no_conn EAGAIN⟩ ⟨5, [⟨7, false⟩], [5, 7], 7⟩
        0).1.calls_since_process ≠ 0 := by
  refine ⟨by decide, rfl, by decide⟩

/-- Witness for C6 at a concrete state below the threshold: the call
only bumps the counter. -/
theorem C6_call_pacing_witness :
    ctl_process ⟨fun _ => ⟨SendRes.s_ok, RecvRes.r_again⟩,
        AcceptRes.no_conn EAGAIN⟩ ⟨5, [], [5], 0⟩ 3 =
      (⟨5, [], [5], 1⟩, 3) := by
  have h := C6_call_pacing.2.1
    ⟨fun _ => ⟨SendRes.s_ok, RecvRes.r_again⟩, AcceptRes.no_conn EAGAIN⟩
    ⟨5, [], [5], 0⟩ 3 (by decide)
  exact h

/-- C7: ctl_process always restores the errno it was entered with; a
client on which an I/O error or a malformed request occurred during the
processing step is removed from the client set; and no channel activity
alters the return code or errno of the enclosing app-facing operation. -/
theorem C7_ctl_transparency :
    (∀ env ctl errno, (ctl_process env ctl errno).2 = errno) ∧
    (∀ env ctlOpt errno op,
       (xcm_tp_socket_app_op env ctlOpt errno op).1 = op errno) ∧
    (∀ env ctl errno c e, ctl.clients = [c] →
       min_calls ctl ≤ ctl.calls_since_process + 1 →
       (process_client (env.io c.fd) c).2 = false →
       env.acc = AcceptRes.no_conn e →
       (ctl_process env ctl errno).1.clients = []) ∧
    (∀ env ctl errno c1 c2 e, ctl.clients = [c1, c2] →
       min_calls ctl ≤ ctl.calls_since_process + 1 →
       (process_client (env.io c1.fd) c1).2 = true →
       (process_client (env.io c2.fd) c2).2 = false →
       env.acc = AcceptRes.no_conn e →
       (ctl_process env ctl errno).1.clients =
         [(process_client (env.io c1.fd) c1).1]) := by
  refine ⟨?_, ?_, ?_, ?_⟩
  · intro env ctl errno
    exact ctl_process_go_errno _ env ctl errno
  · intro env ctlOpt errno op
    cases ctlOpt with
    | none => rfl
    | some ctl =>
      simp only [xcm_tp_socket_app_op, do_ctl]
      rw [ctl_process_succ_form, ctl_process_go_errno]
  · intro env ctl errno c e hc htrig hfail hacc
    rw [ctl_process_trigger env ctl errno htrig]
    rw [hc]
    rw [show (4 * List.length [c] + 7 : Nat) = ((9 + 1) + 1 : Nat) from rfl]
    rw [process_loop_fail_single 9 env ctl.server_fd ctl.reg_set c errno hfail]
    rw [if_pos (by simp [MAX_CLIENTS])]
    rw [hacc]
    rfl
  · intro env ctl errno c1 c2 e hc htrig h1 h2 hacc
    rw [ctl_process_trigger env ctl errno htrig]
    rw [hc]
    rw [show (4 * List.length [c1, c2] + 7 : Nat) =
          (((12 + 1) + 1) + 1 : Nat) from rfl]
    rw [process_loop_ok_fail_pair 12 env ctl.server_fd ctl.reg_set c1 c2
        errno h1 h2]
    rw [if_pos (by simp [MAX_CLIENTS])]
    rw [hacc]
    rfl

/-- Witness for C7 at a concrete state: a single client whose recv
fails with an I/O error is removed on the processing call, and errno is
unchanged. -/
theorem C7_ctl_transparency_witness :
    (ctl_process ⟨fun _ => ⟨SendRes.s_ok, RecvRes.r_err 104⟩,
        AcceptRes.no_conn EAGAIN⟩ ⟨5, [⟨7, false⟩], [5, 7], 7⟩ 9).1.clients =
      [] ∧
    (ctl_process ⟨fun _ => ⟨SendRes.s_ok, RecvRes.r_err 104⟩,
        AcceptRes.no_conn EAGAIN⟩ ⟨5, [⟨7, false⟩], [5, 7], 7⟩ 9).2 = 9 :=
  ⟨C7_ctl_transparency.2.2.1
     ⟨fun _ => ⟨SendRes.s_ok, RecvRes.r_err 104⟩, AcceptRes.no_conn EAGAIN⟩
     ⟨5, [⟨7, false⟩], [5, 7], 7⟩ 9 ⟨7, false⟩ EAGAIN rfl (by decide) rfl rfl,
   C7_ctl_transparency.1
     ⟨fun _ => ⟨SendRes.s_ok, RecvRes.r_err 104⟩, AcceptRes.no_conn EAGAIN⟩
     ⟨5, [⟨7, false⟩], [5, 7], 7⟩ 9⟩

/-- C8: a generic attribute read with a too-small caller buffer fails
with EOVERFLOW and leaves the buffer unwritten; otherwise it writes the
value and returns its length -- for strings including the terminating
NUL, so a string read fails exactly when strlen(value) >= capacity; a
bool read returns 1, an int64 read (xcm.max_msg_size) returns 8. -/
theorem C8_attr_read_overflow :
    (∀ (value buf : List Nat) (capacity errno : Nat),
       capacity ≤ value.length →
       get_str_attr value buf capacity errno = (-1, buf, EOVERFLOW)) ∧
    (∀ (value buf : List Nat) (capacity errno : Nat),
       value.length < capacity →
       get_str_attr value buf capacity errno =
         ((value.length : Int) + 1,
          value ++ 0 :: buf.drop (value.length + 1), errno)) ∧
    (∀ (value : Bool) (buf : List Nat) (errno : Nat),
       get_bool_attr value buf 0 errno = (-1, buf, EOVERFLOW)) ∧
    (∀ (value : Bool) (buf : List Nat) (capacity errno : Nat),
       1 ≤ capacity →
       get_bool_attr value buf capacity errno =
         (1, bool_byte value :: buf.drop 1, errno)) ∧
    (∀ (mm : Nat) (buf : List Nat) (capacity errno : Nat), capacity < 8 →
       get_max_msg_attr SocketType.conn mm buf capacity errno =
         (-1, buf, EOVERFLOW)) ∧
    (∀ (mm : Nat) (buf : List Nat) (capacity errno : Nat), 8 ≤ capacity →
       get_max_msg_attr SocketType.conn mm buf capacity errno =
         (8, int64_bytes mm ++ buf.drop 8, errno)) := by
  refine ⟨?_, ?_, ?_, ?_, ?_, ?_⟩
  · intro value buf capacity errno h
    simp [get_str_attr, h]
  · intro value buf capacity errno h
    simp [get_str_attr, Nat.not_le_of_lt h, if_neg]
  · intro value buf errno
    simp [get_bool_attr]
  · intro value buf capacity errno h
    simp [get_bool_attr]
    omega
  · intro mm buf capacity errno h
    simp [get_max_msg_attr, h]
  · intro mm buf capacity errno h
    simp [get_max_msg_attr, Nat.not_lt_of_le h]

/-- Witness for C8 at concrete inputs: reading a 2-byte string into a
2-byte buffer overflows and leaves the buffer unwritten, while a 3-byte
buffer receives the value plus NUL and rc 3. -/
theorem C8_attr_read_overflow_witness :
    get_str_attr [104, 105] [9, 9] 2 0 = (-1, [9, 9], EOVERFLOW) ∧
    get_str_attr [104, 105] [9, 9, 9] 3 0 = (3, [104, 105, 0], 0) := by
  constructor
  · exact C8_attr_read_overflow.1 [104, 105] [9, 9] 2 0 (by decide)
  · have h := C8_attr_read_overflow.2.1 [104, 105] [9, 9, 9] 3 0 (by decide)
    rw [h]
    rfl

/-- C9: registering an already-registered protocol name is rejected
(aborted, leaving no updated registry); a successful registration keeps
the registry within the compile-time capacity of MAX_PROTOS (8), and a
subsequent lookup of the name returns the registered ops. -/
theorem C9_registry (reg : TpRegistry) (proto_name : String) (ops : Nat) :
    ((xcm_tp_proto_by_name reg proto_name).isSome →
       xcm_tp_register reg proto_name ops = none) ∧
    (∀ reg2, xcm_tp_register reg proto_name ops = some reg2 →
       reg2.protos.length ≤ MAX_PROTOS ∧
       xcm_tp_proto_by_name reg2 proto_name = some ⟨proto_name, ops⟩) := by
  constructor
  · intro hdup
    rw [xcm_tp_register, if_neg]
    rintro ⟨-, -, hnone⟩
    rw [hnone] at hdup
    cases hdup
  · intro reg2 hreg
    rw [xcm_tp_register] at hreg
    split at hreg
    case isFalse => cases hreg
    case isTrue hcond =>
      obtain ⟨hlen, hnamelen, hnone⟩ := hcond
      obtain rfl : TpRegistry.mk (reg.protos ++ [⟨proto_name, ops⟩]) = reg2 :=
        Option.some.injEq _ _ ▸ hreg
      constructor
      · simp only [List.length_append, List.length_singleton, MAX_PROTOS]
        simp only [MAX_PROTOS] at hlen
        omega
      · simp only [xcm_tp_proto_by_name] at hnone ⊢
        rw [List.find?_append]
        rw [hnone]
        simp

/-- Witness for C9 at a concrete registry holding "ux": registering
"tls" succeeds, stays within capacity, and is then found by name. -/
theorem C9_registry_witness :
    (TpRegistry.mk [⟨"ux", 1⟩, ⟨"tls", 2⟩]).protos.length ≤ MAX_PROTOS ∧
    xcm_tp_proto_by_name ⟨[⟨"ux", 1⟩, ⟨"tls", 2⟩]⟩ "tls" =
      some ⟨"tls", 2⟩ :=
  (C9_registry ⟨[⟨"ux", 1⟩]⟩ "tls" 2).2 ⟨[⟨"ux", 1⟩, ⟨"tls", 2⟩]⟩ rfl
